import Mathlib

/-!
Shallow embedding of the TracesOfBreakfast pipeline (`main.go`).

The external `breakfast.Pancake` item is opaque in the repository: the code
only calls `Flip() error`, `IsBurnt() bool` and `Syrup() error` on it.  We
model an item by the outcomes those calls would produce, plus markers
recording the in-place mutations performed by a successful `Flip` or
`Syrup`.  The tracing and logging backends are likewise modelled by the
observable operations the pipeline performs on them (event open, error tag,
event close, stream close), recorded in the result structures.
-/

namespace Breakfast

/-- Errors surfaced by Stage1: either the error returned by an item
transform, or the batch-level `errors.New("Burnt Pancake")` error. -/
inductive PErr where
  | itemErr (msg : String)
  | burntPancake
deriving DecidableEq, Repr

/-- Model of the external `breakfast.Pancake`: the outcome each of its three
operations would produce, plus mutation markers. `flipResult = none` means
`Flip()` succeeds; `some msg` means it fails with that error. Likewise for
`syrupResult` and `Syrup()`. `burnt` is the value `IsBurnt()` returns after
the cook wait. `flipped` and `syruped` record the in-place mutations. -/
structure Pancake where
  flipResult : Option String
  burnt : Bool
  syrupResult : Option String
  flipped : Bool := false
  syruped : Bool := false
deriving DecidableEq, Repr

/-- In-place mutation performed by a successful `Flip()`. -/
def markFlipped (p : Pancake) : Pancake :=
  { p with flipped := true }

/-- In-place mutation performed by a successful `Syrup()`. -/
def markSyruped (p : Pancake) : Pancake :=
  { p with syruped := true }

/-- Model of `cakes[p].Flip()`: either the error, or the mutated item. -/
def Pancake.Flip (p : Pancake) : Except String Pancake :=
  match p.flipResult with
  | some e => .error e
  | none => .ok (markFlipped p)

/-- Model of `cakes[p].IsBurnt()`. -/
def Pancake.IsBurnt (p : Pancake) : Bool := p.burnt

/-- Model of `cakes[p].Syrup()`: either the error, or the mutated item. -/
def Pancake.Syrup (p : Pancake) : Except String Pancake :=
  match p.syrupResult with
  | some e => .error e
  | none => .ok (markSyruped p)

/-- Model of `breakfast.MakePancakes(n)`: a batch of `n` items whose opaque
internal state is supplied by the generator oracle `mk`. -/
def MakePancakes (n : Nat) (mk : Nat → Pancake) : List Pancake :=
  (List.range n).map mk

/-- Operations performed on the `FlipPancakes` event-in-progress `eip`. -/
inductive EipOp where
  | setError (e : PErr)
  | done
deriving DecidableEq, Repr

/-- Whether an `EipOp` is the close transition `eip.Done()`. -/
def EipOp.isDone : EipOp → Bool
  | .done => true
  | _ => false

/-- Outcome of the first `for p := range cakes` loop of `FlipPancakes`:
the batch state after the loop (items flipped in place up to the first
failure), the error of the first failing `Flip` if any, and how many items
had `Flip` invoked on them. -/
structure FlipLoopOut where
  cakes : List Pancake
  err : Option String
  invoked : Nat
deriving DecidableEq, Repr

/-- The flip loop of `FlipPancakes` (main.go lines 73-77): invoke `Flip` on
each item in batch order, returning the first error immediately. -/
def flipLoop : List Pancake → FlipLoopOut
  | [] => ⟨[], none, 0⟩
  | p :: ps =>
    match p.Flip with
    | .error e => ⟨p :: ps, some e, 1⟩
    | .ok q =>
      let r := flipLoop ps
      ⟨q :: r.cakes, r.err, r.invoked + 1⟩

/-- Observable outcome of `FlipPancakes`: the returned error, the batch
state, how many `Flip` calls were made, whether the cook `time.Sleep` was
reached, and the ordered operations performed on the stage event scope. -/
structure Stage1Result where
  err : Option PErr
  cakes : List Pancake
  invoked : Nat
  slept : Bool
  eipOps : List EipOp
deriving DecidableEq, Repr

/-- Embedding of `FlipPancakes` (main.go lines 63-89): flip every item
fail-fast, sleep, then check `IsBurnt` over the batch and return the
`"Burnt Pancake"` error when any item is burnt.  The deferred closure tags
the event scope with the returned error (when there is one) and then calls
`eip.Done()` exactly once, on every exit path. -/
def FlipPancakes (cakes : List Pancake) : Stage1Result :=
  let r := flipLoop cakes
  let err : Option PErr :=
    match r.err with
    | some e => some (.itemErr e)
    | none => if r.cakes.any Pancake.IsBurnt then some .burntPancake else none
  let eipOps : List EipOp :=
    (match err with
     | some e => [.setError e]
     | none => []) ++ [.done]
  ⟨err, r.cakes, r.invoked, r.err.isNone, eipOps⟩

/-- Model of a `context.Context` as far as the pipeline observes it: whether
the context carries an event-in-progress reference (cancellation is handled
separately, by the select-resolution oracle below). -/
structure Ctx where
  hasEvent : Bool
deriving DecidableEq, Repr

/-- Model of `log.EventBeginInContext(ctx, name)`: the derived context
carries a reference to the freshly opened event. -/
def EventBeginInContext (_ctx : Ctx) : Ctx :=
  ⟨true⟩

/-- Model of `logging.MaybeFinishEvent(ctx)`: the number of event-close
transitions it performs — one when the context carries an event, none
otherwise. -/
def MaybeFinishEvent (ctx : Ctx) : Nat :=
  if ctx.hasEvent then 1 else 0

/-- Observable outcome of the Stage2 producer loop: the items emitted on
`out` in order, the final mistake-set, the number of error values built by
`fmt.Errorf` and discarded, the number of log records actually produced,
and whether the loop returned through the `ctx.Done()` branch. -/
structure Stage2Out where
  emitted : List Pancake
  mistakes : List Pancake
  discardedErrs : Nat
  logs : Nat
  exitedByCancel : Bool
deriving DecidableEq, Repr

/-- The producer loop of the first rendition of `SyrupPancakes` (main.go
lines 103-120).  `sched` is the select-resolution oracle: `sched k = true`
means the `k`-th `select` in this run resolves to the `<-ctx.Done()`
branch, `false` that the emission `out <- cakes[p]` wins.  On a `Syrup`
failure the code evaluates `fmt.Errorf("Ohh no, soggy pancakes!")` and
discards the resulting error value — no log record is produced — appends
the item to `mistakes` and continues.  After a successful emission, when
`len(mistakes) == 0` the loop returns immediately. -/
def syrupLoop (sched : Nat → Bool) : List Pancake → Nat → List Pancake → Stage2Out
  | [], _, mistakes => ⟨[], mistakes, 0, 0, false⟩
  | p :: ps, k, mistakes =>
    match p.Syrup with
    | .error _ =>
      let r := syrupLoop sched ps k (mistakes ++ [p])
      { r with discardedErrs := r.discardedErrs + 1 }
    | .ok q =>
      if sched k then ⟨[], mistakes, 0, 0, true⟩
      else if mistakes.isEmpty then ⟨[q], mistakes, 0, 0, false⟩
      else
        let r := syrupLoop sched ps (k + 1) mistakes
        { r with emitted := q :: r.emitted }

/-- Observable outcome of a `SyrupPancakes` invocation: what the producer
did, how many times `close(out)` ran, how many event scopes the invocation
opened, and how many event-close transitions its deferred
`MaybeFinishEvent` performed. -/
structure Stage2Result where
  out : Stage2Out
  streamCloses : Nat
  eventsOpened : Nat
  eventFinishes : Nat
deriving DecidableEq, Repr

/-- Embedding of the first rendition of `SyrupPancakes` (main.go lines
90-124): derive an event-carrying context, run the producer, and on every
exit of the producer run the deferred `close(out)` and
`MaybeFinishEvent(ctx)` exactly once each. -/
def SyrupPancakes (sched : Nat → Bool) (ctx : Ctx) (cakes : List Pancake) : Stage2Result :=
  let ctx2 := EventBeginInContext ctx
  let o := syrupLoop sched cakes 0 []
  ⟨o, 1, 1, MaybeFinishEvent ctx2⟩

/-- The producer loop of the second rendition, inside the `syrupPancakes`
helper (main.go lines 259-276); the Go loop body is the same text as in the
first rendition. -/
def syrupLoop2 (sched : Nat → Bool) : List Pancake → Nat → List Pancake → Stage2Out
  | [], _, mistakes => ⟨[], mistakes, 0, 0, false⟩
  | p :: ps, k, mistakes =>
    match p.Syrup with
    | .error _ =>
      let r := syrupLoop2 sched ps k (mistakes ++ [p])
      { r with discardedErrs := r.discardedErrs + 1 }
    | .ok q =>
      if sched k then ⟨[], mistakes, 0, 0, true⟩
      else if mistakes.isEmpty then ⟨[q], mistakes, 0, 0, false⟩
      else
        let r := syrupLoop2 sched ps (k + 1) mistakes
        { r with emitted := q :: r.emitted }

/-- Embedding of the `syrupPancakes` helper of the second rendition
(main.go lines 248-280): runs the producer on whatever context it is
handed; it opens no event of its own, and its deferred `MaybeFinishEvent`
closes an event only when the context carries one. -/
def syrupPancakes (sched : Nat → Bool) (ctx : Ctx) (cakes : List Pancake) : Stage2Result :=
  let o := syrupLoop2 sched cakes 0 []
  ⟨o, 1, 0, MaybeFinishEvent ctx⟩

/-- Embedding of the second rendition of `SyrupPancakes` (main.go lines
242-246): derive the event-carrying context and delegate to the
`syrupPancakes` helper. -/
def SyrupPancakes2 (sched : Nat → Bool) (ctx : Ctx) (cakes : List Pancake) : Stage2Result :=
  let r := syrupPancakes sched (EventBeginInContext ctx) cakes
  { r with eventsOpened := r.eventsOpened + 1 }

/-- Embedding of `EatPancakes` (main.go lines 126-128): takes the read side
of the stream and returns immediately; the list of items it receives from
the stream is empty. -/
def EatPancakes (_stream : List Pancake) : List Pancake :=
  []

/-- Observable outcome of one `ServeBreakfast` invocation. `stage2` is
`none` exactly when `SyrupPancakes` was never invoked; `consumerReceived`
is the list of items `EatPancakes` received, when it was invoked. -/
structure ServeResult where
  err : Option PErr
  rootSpanFinished : Bool
  ctxCancelled : Bool
  stage1 : Stage1Result
  stage2 : Option Stage2Result
  consumerInvoked : Bool
  consumerReceived : Option (List Pancake)
deriving DecidableEq, Repr

/-- Embedding of `ServeBreakfast` (main.go lines 38-62) over an arbitrary
batch: run Stage1 synchronously; on error return it at once; otherwise run
Stage2 and hand the stream to `EatPancakes`.  The deferred `cancel()` and
`rootSpan.Finish()` run on every exit path. -/
def ServeBreakfastWith (sched : Nat → Bool) (cakes : List Pancake) : ServeResult :=
  let rootCtx : Ctx := ⟨false⟩
  let s1 := FlipPancakes cakes
  match s1.err with
  | some e => ⟨some e, true, true, s1, none, false, none⟩
  | none =>
    let s2 := SyrupPancakes sched rootCtx s1.cakes
    let received := EatPancakes s2.out.emitted
    ⟨none, true, true, s1, some s2, true, some received⟩

/-- Embedding of `ServeBreakfast` exactly as written: the batch is
`breakfast.MakePancakes(3)`, with the opaque item states supplied by the
generator oracle `mk`. -/
def ServeBreakfast (sched : Nat → Bool) (mk : Nat → Pancake) : ServeResult :=
  ServeBreakfastWith sched (MakePancakes 3 mk)

/-! Helper lemmas about the loops. -/

/-- When every item's `Flip` succeeds, the flip loop transforms the whole
batch in order and invokes `Flip` on all of it. -/
lemma flipLoop_all_ok (cakes : List Pancake)
    (h : ∀ p ∈ cakes, p.flipResult = none) :
    flipLoop cakes = ⟨cakes.map markFlipped, none, cakes.length⟩ := by
  induction cakes with
  | nil => rfl
  | cons p ps ih =>
    have hp : p.flipResult = none := h p (List.mem_cons_self p ps)
    have hps : ∀ q ∈ ps, q.flipResult = none :=
      fun q hq => h q (List.mem_cons_of_mem p hq)
    simp [flipLoop, Pancake.Flip, hp, ih hps]

/-- When items before index `k` flip cleanly and item `k` fails, the flip
loop stops at `k`: the first `k` items are transformed, the rest untouched,
`Flip` was invoked `k + 1` times, and the error of item `k` is returned. -/
lemma flipLoop_fail_at (k : Nat) :
    ∀ (cakes : List Pancake) (e : String) (hk : k < cakes.length),
    cakes[k].flipResult = some e →
    (∀ j (hj : j < cakes.length), j < k → cakes[j].flipResult = none) →
    flipLoop cakes = ⟨(cakes.take k).map markFlipped ++ cakes.drop k, some e, k + 1⟩ := by
  induction k with
  | zero =>
    intro cakes e hk hfail _
    match cakes, hk with
    | p :: ps, _ =>
      simp only [List.getElem_cons_zero] at hfail
      simp [flipLoop, Pancake.Flip, hfail]
  | succ k ih =>
    intro cakes e hk hfail hbefore
    match cakes, hk with
    | p :: ps, hk =>
      have hp : p.flipResult = none := by
        have := hbefore 0 (by simp) (Nat.succ_pos k)
        simpa using this
      have hk2 : k < ps.length := by
        simpa [Nat.succ_lt_succ_iff] using hk
      have hfail2 : ps[k].flipResult = some e := by
        simpa using hfail
      have hbefore2 : ∀ j (hj : j < ps.length), j < k → ps[j].flipResult = none := by
        intro j hj hjk
        have := hbefore (j + 1) (by simpa [Nat.succ_lt_succ_iff] using hj)
          (Nat.succ_lt_succ hjk)
        simpa using this
      simp [flipLoop, Pancake.Flip, hp, ih ps e hk2 hfail2 hbefore2]

/-- With a non-empty mistake-set and no cancellation, the producer loop
never takes the early exit: it tries every remaining item, emits the
successes in order, appends the failures to the mistake-set, and falls off
the end of the batch. -/
lemma syrupLoop_nonempty_mistakes (sched : Nat → Bool)
    (hs : ∀ k, sched k = false) :
    ∀ (ps : List Pancake) (k : Nat) (ms : List Pancake), ms ≠ [] →
    syrupLoop sched ps k ms =
      ⟨(ps.filter (fun q => q.syrupResult.isNone)).map markSyruped,
       ms ++ ps.filter (fun q => q.syrupResult.isSome),
       (ps.filter (fun q => q.syrupResult.isSome)).length, 0, false⟩ := by
  intro ps
  induction ps with
  | nil => intro k ms _; simp [syrupLoop]
  | cons p ps ih =>
    intro k ms hms
    cases hp : p.syrupResult with
    | some e =>
      have hne : ms ++ [p] ≠ [] := by simp
      simp [syrupLoop, Pancake.Syrup, hp, ih k (ms ++ [p]) hne,
        List.filter_cons, Option.isSome, Option.isNone, List.append_assoc]
    | none =>
      have hempty : ms.isEmpty = false := by
        cases ms with
        | nil => exact absurd rfl hms
        | cons m ms => rfl
      simp [syrupLoop, Pancake.Syrup, hp, hs k, hempty, ih (k + 1) ms hms,
        List.filter_cons, Option.isSome, Option.isNone]

/-- When every `select` resolves to the cancellation branch, the producer
emits nothing. -/
lemma syrupLoop_cancelled (sched : Nat → Bool) (hs : ∀ k, sched k = true) :
    ∀ (ps : List Pancake) (k : Nat) (ms : List Pancake),
    (syrupLoop sched ps k ms).emitted = [] := by
  intro ps
  induction ps with
  | nil => intro k ms; simp [syrupLoop]
  | cons p ps ih =>
    intro k ms
    cases hp : p.syrupResult with
    | some e => simp [syrupLoop, Pancake.Syrup, hp, ih]
    | none => simp [syrupLoop, Pancake.Syrup, hp, hs k]

/-- The two renditions of the producer loop are the same function. -/
lemma syrupLoop2_eq_syrupLoop (sched : Nat → Bool) :
    ∀ (ps : List Pancake) (k : Nat) (ms : List Pancake),
    syrupLoop2 sched ps k ms = syrupLoop sched ps k ms := by
  intro ps
  induction ps with
  | nil => intro k ms; rfl
  | cons p ps ih =>
    intro k ms
    cases hp : p.syrupResult with
    | some e => simp [syrupLoop, syrupLoop2, Pancake.Syrup, hp, ih]
    | none => simp [syrupLoop, syrupLoop2, Pancake.Syrup, hp, ih]

/-- The event operations of `FlipPancakes` are determined by its returned
error: tag it when present, then `Done()`. -/
lemma FlipPancakes_eipOps (cakes : List Pancake) :
    (FlipPancakes cakes).eipOps =
      (match (FlipPancakes cakes).err with
       | some e => [EipOp.setError e]
       | none => []) ++ [EipOp.done] := rfl

/-! Concrete items used by witnesses and counterexamples. -/

/-- An item on which every operation succeeds and nothing is burnt. -/
def plainCake : Pancake := ⟨none, false, none, false, false⟩

/-- An item whose `Syrup()` fails. -/
def sogCake : Pancake := ⟨none, false, some "soggy", false, false⟩

/-- An item that is burnt after the cook wait. -/
def burntCake : Pancake := ⟨none, true, none, false, false⟩

/-- An item whose `Flip()` fails. -/
def flopCake : Pancake := ⟨some "flop", false, none, false, false⟩

/-- The select-resolution oracle of a run in which no emission races lost
to cancellation (a consumer keeps receiving and nobody cancels). -/
def noCancel : Nat → Bool := fun _ => false

/-- The select-resolution oracle of a run whose context is cancelled before
any emission completes. -/
def allCancel : Nat → Bool := fun _ => true

/-! Claims. -/

/-- C1: for every batch passed to Stage2 in which every item's `Syrup`
succeeds (and no cancellation interferes), the output stream emits exactly
one item — the first item of the batch, syruped — and then closes; no
remaining item is emitted in that pass. -/
theorem stage2_all_success_emits_only_first
    (sched : Nat → Bool) (ctx : Ctx) (p : Pancake) (ps : List Pancake)
    (hall : ∀ q ∈ p :: ps, q.syrupResult = none)
    (hs : ∀ k, sched k = false) :
    (SyrupPancakes sched ctx (p :: ps)).out.emitted = [markSyruped p] ∧
    (SyrupPancakes sched ctx (p :: ps)).out.exitedByCancel = false ∧
    (SyrupPancakes sched ctx (p :: ps)).streamCloses = 1 := by
  have hp : p.syrupResult = none := hall p (List.mem_cons_self p ps)
  refine ⟨?_, ?_, rfl⟩ <;>
    simp [SyrupPancakes, syrupLoop, Pancake.Syrup, hp, hs 0]

/-- Witness for C1 at a concrete two-item batch. -/
theorem stage2_all_success_emits_only_first_witness :
    (∀ q ∈ [plainCake, plainCake], q.syrupResult = none) ∧
    (∀ k, noCancel k = false) ∧
    ((SyrupPancakes noCancel ⟨false⟩ [plainCake, plainCake]).out.emitted
        = [markSyruped plainCake] ∧
     (SyrupPancakes noCancel ⟨false⟩ [plainCake, plainCake]).out.exitedByCancel = false ∧
     (SyrupPancakes noCancel ⟨false⟩ [plainCake, plainCake]).streamCloses = 1) :=
  ⟨by decide, fun _ => rfl,
    stage2_all_success_emits_only_first noCancel ⟨false⟩ plainCake [plainCake]
      (by decide) (fun _ => rfl)⟩

/-- C2: when item `k` is the first whose `Flip` fails, Stage1 returns that
item's error, `Flip` was invoked on exactly the first `k + 1` items (none
at an index greater than `k`), and the items before `k` remain
transformed while those from `k` on are untouched. -/
theorem stage1_failfast
    (cakes : List Pancake) (k : Nat) (e : String) (hk : k < cakes.length)
    (hfail : cakes[k].flipResult = some e)
    (hbefore : ∀ j (hj : j < cakes.length), j < k → cakes[j].flipResult = none) :
    (FlipPancakes cakes).err = some (PErr.itemErr e) ∧
    (FlipPancakes cakes).invoked = k + 1 ∧
    (FlipPancakes cakes).cakes = (cakes.take k).map markFlipped ++ cakes.drop k := by
  simp [FlipPancakes, flipLoop_fail_at k cakes e hk hfail hbefore]

/-- Witness for C2: in a three-item batch whose second item fails `Flip`,
Stage1 fails with that error after invoking `Flip` twice. -/
theorem stage1_failfast_witness :
    ([plainCake, flopCake, plainCake][1].flipResult = some "flop") ∧
    ((FlipPancakes [plainCake, flopCake, plainCake]).err
        = some (PErr.itemErr "flop") ∧
     (FlipPancakes [plainCake, flopCake, plainCake]).invoked = 1 + 1 ∧
     (FlipPancakes [plainCake, flopCake, plainCake]).cakes =
       ([plainCake, flopCake, plainCake].take 1).map markFlipped ++
         [plainCake, flopCake, plainCake].drop 1) :=
  ⟨by decide,
    stage1_failfast [plainCake, flopCake, plainCake] 1 "flop" (by decide)
      (by decide) (by decide)⟩

/-- C3: when every `Flip` succeeds but some item is burnt after the cook
wait, Stage1 returns the batch-level `"Burnt Pancake"` error — an error
distinct from every per-item transform error — after flipping all `N`
items and reaching the sleep. -/
theorem stage1_burnt_batch
    (cakes : List Pancake)
    (hall : ∀ p ∈ cakes, p.flipResult = none)
    (hburnt : ∃ p ∈ cakes, p.burnt = true) :
    (FlipPancakes cakes).err = some PErr.burntPancake ∧
    (∀ msg, (FlipPancakes cakes).err ≠ some (PErr.itemErr msg)) ∧
    (FlipPancakes cakes).cakes = cakes.map markFlipped ∧
    (FlipPancakes cakes).invoked = cakes.length ∧
    (FlipPancakes cakes).slept = true := by
  obtain ⟨b, hb, hbu⟩ := hburnt
  have hany : (cakes.map markFlipped).any Pancake.IsBurnt = true := by
    simp only [List.any_map, List.any_eq_true]
    exact ⟨b, hb, by simp [Function.comp, markFlipped, Pancake.IsBurnt, hbu]⟩
  refine ⟨?_, ?_, ?_, ?_, ?_⟩ <;>
    simp [FlipPancakes, flipLoop_all_ok cakes hall, hany]

/-- Witness for C3 at a concrete batch containing a burnt item. -/
theorem stage1_burnt_batch_witness :
    (∀ p ∈ [plainCake, burntCake], p.flipResult = none) ∧
    (∃ p ∈ [plainCake, burntCake], p.burnt = true) ∧
    ((FlipPancakes [plainCake, burntCake]).err = some PErr.burntPancake ∧
     (∀ msg, (FlipPancakes [plainCake, burntCake]).err ≠ some (PErr.itemErr msg)) ∧
     (FlipPancakes [plainCake, burntCake]).cakes
        = [plainCake, burntCake].map markFlipped ∧
     (FlipPancakes [plainCake, burntCake]).invoked = [plainCake, burntCake].length ∧
     (FlipPancakes [plainCake, burntCake]).slept = true) :=
  ⟨by decide, ⟨burntCake, by decide, rfl⟩,
    stage1_burnt_batch [plainCake, burntCake] (by decide)
      ⟨burntCake, by decide, rfl⟩⟩

/-- C4: on every exit path of Stage1 the event scope sees exactly one
`Done()` — preceded by an error tag exactly when Stage1 returns an error —
and on every exit path of Stage2 the event opened for the stage is finished
exactly once by the deferred `MaybeFinishEvent`. -/
theorem event_scope_closed_exactly_once
    (cakes : List Pancake) (sched : Nat → Bool) (ctx : Ctx) :
    (FlipPancakes cakes).eipOps.countP EipOp.isDone = 1 ∧
    (∀ e, (FlipPancakes cakes).err = some e →
      (FlipPancakes cakes).eipOps = [EipOp.setError e, EipOp.done]) ∧
    ((FlipPancakes cakes).err = none →
      (FlipPancakes cakes).eipOps = [EipOp.done]) ∧
    (SyrupPancakes sched ctx cakes).eventsOpened = 1 ∧
    (SyrupPancakes sched ctx cakes).eventFinishes = 1 := by
  refine ⟨?_, ?_, ?_, rfl, rfl⟩ <;>
    cases h : (FlipPancakes cakes).err <;>
      simp [FlipPancakes_eipOps, h, List.countP, List.countP.go, EipOp.isDone]

/-- C5: when the first item's `Syrup` fails (and no cancellation
interferes), it joins the mistake-set and the producer continues: with the
mistake-set non-empty every later successful emission keeps the loop going,
every remaining item is tried, and the stream closes only after the batch
is exhausted, not through the cancellation branch. -/
theorem stage2_first_failure_disables_early_exit
    (sched : Nat → Bool) (ctx : Ctx) (p : Pancake) (rest : List Pancake) (e : String)
    (hp : p.syrupResult = some e) (hs : ∀ k, sched k = false) :
    (SyrupPancakes sched ctx (p :: rest)).out.mistakes =
      p :: rest.filter (fun q => q.syrupResult.isSome) ∧
    (SyrupPancakes sched ctx (p :: rest)).out.emitted =
      (rest.filter (fun q => q.syrupResult.isNone)).map markSyruped ∧
    (SyrupPancakes sched ctx (p :: rest)).out.exitedByCancel = false ∧
    (SyrupPancakes sched ctx (p :: rest)).streamCloses = 1 := by
  have hne : [p] ≠ ([] : List Pancake) := by simp
  refine ⟨?_, ?_, ?_, rfl⟩ <;>
    simp [SyrupPancakes, syrupLoop, Pancake.Syrup, hp,
      syrupLoop_nonempty_mistakes sched hs rest 0 [p] hne]

/-- Witness for C5: first of three items fails `Syrup`, the other two are
emitted and the mistake-set holds the first. -/
theorem stage2_first_failure_disables_early_exit_witness :
    (sogCake.syrupResult = some "soggy") ∧
    (∀ k, noCancel k = false) ∧
    ((SyrupPancakes noCancel ⟨false⟩ [sogCake, plainCake, plainCake]).out.mistakes =
       sogCake :: [plainCake, plainCake].filter (fun q => q.syrupResult.isSome) ∧
     (SyrupPancakes noCancel ⟨false⟩ [sogCake, plainCake, plainCake]).out.emitted =
       ([plainCake, plainCake].filter (fun q => q.syrupResult.isNone)).map markSyruped ∧
     (SyrupPancakes noCancel ⟨false⟩ [sogCake, plainCake, plainCake]).out.exitedByCancel
        = false ∧
     (SyrupPancakes noCancel ⟨false⟩ [sogCake, plainCake, plainCake]).streamCloses = 1) :=
  ⟨rfl, fun _ => rfl,
    stage2_first_failure_disables_early_exit noCancel ⟨false⟩ sogCake
      [plainCake, plainCake] "soggy" rfl (fun _ => rfl)⟩

/-- C6: when the context is cancelled before any emission completes, the
stream closes with zero emissions and the Stage2 event scope is still
finished exactly once. -/
theorem stage2_cancelled_before_first_emission
    (sched : Nat → Bool) (ctx : Ctx) (cakes : List Pancake)
    (hs : ∀ k, sched k = true) :
    (SyrupPancakes sched ctx cakes).out.emitted = [] ∧
    (SyrupPancakes sched ctx cakes).streamCloses = 1 ∧
    (SyrupPancakes sched ctx cakes).eventFinishes = 1 := by
  refine ⟨?_, rfl, rfl⟩
  simp [SyrupPancakes, syrupLoop_cancelled sched hs cakes 0 []]

/-- Witness for C6 at a concrete batch under immediate cancellation. -/
theorem stage2_cancelled_before_first_emission_witness :
    (∀ k, allCancel k = true) ∧
    ((SyrupPancakes allCancel ⟨false⟩ [plainCake, plainCake]).out.emitted = [] ∧
     (SyrupPancakes allCancel ⟨false⟩ [plainCake, plainCake]).streamCloses = 1 ∧
     (SyrupPancakes allCancel ⟨false⟩ [plainCake, plainCake]).eventFinishes = 1) :=
  ⟨fun _ => rfl,
    stage2_cancelled_before_first_emission allCancel ⟨false⟩
      [plainCake, plainCake] (fun _ => rfl)⟩

/-- C7: when Stage1 fails, `ServeBreakfast` returns exactly that error,
never invokes Stage2 or the consumer, and the deferred `rootSpan.Finish()`
and `cancel()` still run. -/
theorem coordinator_propagates_stage1_error
    (sched : Nat → Bool) (mk : Nat → Pancake) (e : PErr)
    (h : (FlipPancakes (MakePancakes 3 mk)).err = some e) :
    (ServeBreakfast sched mk).err = some e ∧
    (ServeBreakfast sched mk).stage2 = none ∧
    (ServeBreakfast sched mk).consumerInvoked = false ∧
    (ServeBreakfast sched mk).rootSpanFinished = true ∧
    (ServeBreakfast sched mk).ctxCancelled = true := by
  simp [ServeBreakfast, ServeBreakfastWith, h]

/-- Witness for C7: a generator whose every item fails `Flip`. -/
theorem coordinator_propagates_stage1_error_witness :
    ((FlipPancakes (MakePancakes 3 (fun _ => flopCake))).err
        = some (PErr.itemErr "flop")) ∧
    ((ServeBreakfast noCancel (fun _ => flopCake)).err
        = some (PErr.itemErr "flop") ∧
     (ServeBreakfast noCancel (fun _ => flopCake)).stage2 = none ∧
     (ServeBreakfast noCancel (fun _ => flopCake)).consumerInvoked = false ∧
     (ServeBreakfast noCancel (fun _ => flopCake)).rootSpanFinished = true ∧
     (ServeBreakfast noCancel (fun _ => flopCake)).ctxCancelled = true) :=
  ⟨by decide,
    coordinator_propagates_stage1_error noCancel (fun _ => flopCake)
      (PErr.itemErr "flop") (by decide)⟩

/-- C8: evaluation of Stage2 at a batch whose single item fails `Syrup`.
The failure is never propagated — `SyrupPancakes` returns only a stream and
the coordinator still reports success — but no log record is produced
either: the `fmt.Errorf("Ohh no, soggy pancakes!")` call builds an error
value and discards it, so the run shows one discarded error and zero log
records. -/
theorem stage2_syrup_failure_discarded_not_logged :
    (SyrupPancakes noCancel ⟨false⟩ [sogCake]).out.logs = 0 ∧
    (SyrupPancakes noCancel ⟨false⟩ [sogCake]).out.discardedErrs = 1 ∧
    (SyrupPancakes noCancel ⟨false⟩ [sogCake]).out.mistakes = [sogCake] ∧
    (SyrupPancakes noCancel ⟨false⟩ [sogCake]).out.emitted = [] ∧
    (ServeBreakfastWith noCancel [sogCake]).err = none := by
  decide

/-- C9 counterexample: with a one-item batch that Stage1 passes and whose
`Syrup` succeeds, the stream carries one emitted item, yet the consumer
`EatPancakes` receives the empty list — it does not drain the stream. -/
theorem consumer_never_drains_counterexample :
    (ServeBreakfastWith noCancel [plainCake]).stage2 =
      some ⟨⟨[markSyruped (markFlipped plainCake)], [], 0, 0, false⟩, 1, 1, 1⟩ ∧
    (ServeBreakfastWith noCancel [plainCake]).consumerReceived = some [] ∧
    ([] : List Pancake) ≠ [markSyruped (markFlipped plainCake)] := by
  decide

/-- C9 amended: after launching Stage2, the coordinator hands the stream to
the consumer and returns no error, but `EatPancakes` returns immediately
without receiving any item — the stream is not drained before the
coordinator returns. -/
theorem coordinator_hands_stream_consumer_receives_nothing
    (sched : Nat → Bool) (cakes : List Pancake)
    (h : (FlipPancakes cakes).err = none) :
    (ServeBreakfastWith sched cakes).consumerInvoked = true ∧
    (ServeBreakfastWith sched cakes).consumerReceived = some [] ∧
    (ServeBreakfastWith sched cakes).err = none := by
  simp [ServeBreakfastWith, h, EatPancakes]

/-- Witness for the amended C9 at a concrete one-item batch. -/
theorem coordinator_hands_stream_consumer_receives_nothing_witness :
    ((FlipPancakes [plainCake]).err = none) ∧
    ((ServeBreakfastWith noCancel [plainCake]).consumerInvoked = true ∧
     (ServeBreakfastWith noCancel [plainCake]).consumerReceived = some [] ∧
     (ServeBreakfastWith noCancel [plainCake]).err = none) :=
  ⟨by decide,
    coordinator_hands_stream_consumer_receives_nothing noCancel [plainCake]
      (by decide)⟩

/-- C10: the inline rendition of `SyrupPancakes` and the wrapper-plus-
`syrupPancakes`-helper rendition are behaviorally equivalent — for every
select-resolution oracle, context and batch they produce the same
emissions, mistake-set and event open/close behavior. -/
theorem syrup_renditions_equivalent
    (sched : Nat → Bool) (ctx : Ctx) (cakes : List Pancake) :
    SyrupPancakes sched ctx cakes = SyrupPancakes2 sched ctx cakes := by
  simp [SyrupPancakes, SyrupPancakes2, syrupPancakes,
    syrupLoop2_eq_syrupLoop sched cakes 0 []]

end Breakfast
